import Mathlib

/- Shallow embedding of src/libreco/algorithms/din.py (the DIN recommendation model):
   configuration state from DIN.__init__, the embedding-table initialization of
   _build_variables, the composite item embedding of _build_user_item / _build_sparse /
   _build_dense / _build_attention, the non-library attention unit of _attention_unit,
   and the inference drivers predict and recommend_user.  The TensorFlow fusion head
   (self.output) is an opaque numeric function; it is abstracted as an explicit
   score-function parameter wherever an inference driver runs the session. -/

/-- The `task` argument of DIN.__init__: "rating" or "ranking". -/
inductive DinTask
  | rating
  | ranking
deriving DecidableEq

/-- Configuration and data-info state captured by DIN.__init__ (din.py lines 36-99).
`n_users` / `n_items` come from `data_info`; `global_mean` is `data_info.global_mean`;
`user_consumed u` is the consumed-item list of user `u` (`data_info.user_consumed`);
`item_sparse_col_indices` / `item_dense_col_indices` are the item-level field positions;
the four Bool flags mirror `self.sparse`, `self.dense`, `self.item_sparse`,
`self.item_dense`. -/
structure DinConfig where
  task : DinTask
  embed_size : ℕ
  n_users : ℕ
  n_items : ℕ
  sparse : Bool
  dense : Bool
  item_sparse : Bool
  item_dense : Bool
  sparse_feature_size : ℕ
  dense_field_size : ℕ
  item_sparse_col_indices : List ℕ
  item_dense_col_indices : List ℕ
  max_seq_len : ℕ
  global_mean : ℝ
  seed : ℕ
  user_consumed : ℕ → List ℕ

/-- din.py lines 76-77: `self.default_prediction = data_info.global_mean if
(task == "rating") else 0.0`. -/
noncomputable def default_prediction (cfg : DinConfig) : ℝ :=
  if cfg.task = DinTask.rating then cfg.global_mean else 0

/-- The inference-time output transform `1 / (1 + np.exp(-preds))` applied at din.py
lines 395 and 420 (and the activation of the attention MLP hidden layer, line 285). -/
noncomputable def sigmoid (x : ℝ) : ℝ := 1 / (1 + Real.exp (-x))

/- ------------------------------------------------------------------ -/
/- predict (din.py lines 374-399)                                      -/
/- ------------------------------------------------------------------ -/

/-- Modelled from the spec: the index-resolution helper `Base._check_unknown` (its code is
not under src/) records which positions hold a user or item id outside the trained
vocabulary; a position is known exactly when both ids are in range. -/
def known_pair (cfg : DinConfig) (u i : ℕ) : Bool :=
  decide (u < cfg.n_users) && decide (i < cfg.n_items)

/-- Modelled from the spec: `_check_unknown` substitutes a placeholder index at unknown
positions so the feature batch can still be built; the placeholder value is irrelevant
because unknown positions are overwritten with the default prediction afterwards. -/
def resolve_pair (cfg : DinConfig) (p : ℕ × ℕ) : ℕ × ℕ :=
  if known_pair cfg p.1 p.2 then p else (0, 0)

/-- din.py lines 383-394: build the feature batch for the (user, item) arrays and run the
fusion head on it.  `net` abstracts the session run of `self.output`: it yields the raw
scalar score of the final linear layer for one resolved (user index, item index) pair. -/
noncomputable def raw_preds (cfg : DinConfig) (net : ℕ → ℕ → ℝ) (user item : List ℕ) :
    List ℝ :=
  ((user.zip item).map (resolve_pair cfg)).map fun p => net p.1 p.2

/-- din.py line 395: `preds = 1 / (1 + np.exp(-preds))`, applied unconditionally. -/
noncomputable def transformed_preds (cfg : DinConfig) (net : ℕ → ℕ → ℝ)
    (user item : List ℕ) : List ℝ :=
  (raw_preds cfg net user item).map sigmoid

/-- din.py lines 396-397: `preds[unknown_index] = self.default_prediction`. -/
noncomputable def final_preds (cfg : DinConfig) (net : ℕ → ℕ → ℝ) (user item : List ℕ) :
    List ℝ :=
  ((transformed_preds cfg net user item).zip (user.zip item)).map fun q =>
    if known_pair cfg q.2.1 q.2.2 then q.1 else default_prediction cfg

/-- Argument shape accepted by DIN.predict: either one scalar pair or two id arrays. -/
inductive PredIn
  | scalar (user item : ℕ)
  | arr (user item : List ℕ)

/-- Result shape of DIN.predict: a scalar or an array. -/
inductive PredOut
  | scalarOut (r : ℝ)
  | arrOut (rs : List ℝ)

/-- din.py line 399: `return preds[0] if len(user) == 1 else preds`. -/
noncomputable def predict_run (cfg : DinConfig) (net : ℕ → ℕ → ℝ) (user item : List ℕ) :
    PredOut :=
  let preds := final_preds cfg net user item
  if user.length = 1 then PredOut.scalarOut preds.headI else PredOut.arrOut preds

/-- din.py lines 374-399: scalar inputs are wrapped into one-element arrays
(lines 375-378) and the rest of the pipeline is shared. -/
noncomputable def predict (cfg : DinConfig) (net : ℕ → ℕ → ℝ) : PredIn → PredOut
  | PredIn.scalar u i => predict_run cfg net [u] [i]
  | PredIn.arr us vs => predict_run cfg net us vs

/-- Recognizer for the array-shaped result of predict. -/
def is_arr_out : PredOut → Bool
  | PredOut.arrOut _ => true
  | PredOut.scalarOut _ => false

/- ------------------------------------------------------------------ -/
/- recommend_user (din.py lines 401-429)                               -/
/- ------------------------------------------------------------------ -/

/-- Modelled from the spec: `Base._check_unknown_user` (its code is not under src/)
resolves a raw user id, returning it when it is inside the trained vocabulary and no
result ("no recommendation") otherwise. -/
def check_unknown_user (cfg : DinConfig) (user : ℕ) : Option ℕ :=
  if user < cfg.n_users then some user else none

/-- Python truthiness of the Optional[int] returned by `_check_unknown_user`, as tested
by `if not user:` at din.py line 403: both None and the integer 0 are falsy. -/
def py_falsy : Option ℕ → Bool
  | none => true
  | some n => n == 0

/-- The error raised by `np.argpartition(recos, -count)` when the requested kth element
is outside the index range of the score array. -/
inductive NpError
  | kth_out_of_bounds

/-- din.py lines 406-420: scores of the full item catalog for the fixed user, after the
unconditional sigmoid of line 420.  `out` abstracts the session run of `self.output` on
the catalog batch: the raw fusion-head score per item index. -/
noncomputable def recos_of (cfg : DinConfig) (out : ℕ → ℝ) : List ℝ :=
  (List.range cfg.n_items).map fun i => sigmoid (out i)

/-- din.py line 422: `count = n_rec + len(consumed)` (the consumed list is taken with
its Python length, duplicates included). -/
def rec_count (cfg : DinConfig) (u n_rec : ℕ) : ℕ :=
  n_rec + (cfg.user_consumed u).length

/-- Deterministic index ordering underlying the partial selection: all item indices
arranged by descending score (ties by the stable order of `List.range`). -/
noncomputable def idx_desc (recos : List ℝ) : List ℕ :=
  List.insertionSort (fun i j => recos.getD j 0 ≤ recos.getD i 0)
    (List.range recos.length)

/-- din.py line 423: `ids = np.argpartition(recos, -count)[-count:]` keeps the `count`
indices of largest score; the Python slice `[-0:]` keeps the whole array. -/
noncomputable def argpartition_top (recos : List ℝ) (count : ℕ) : List ℕ :=
  if count = 0 then idx_desc recos else (idx_desc recos).take count

/-- The comparison of din.py line 424: `key=lambda x: -x[1]`, i.e. descending score. -/
def score_desc : (ℕ × ℝ) → (ℕ × ℝ) → Prop := fun p q => q.2 ≤ p.2

noncomputable instance : DecidableRel score_desc :=
  fun p q => inferInstanceAs (Decidable (q.2 ≤ p.2))

instance : IsTotal (ℕ × ℝ) score_desc := ⟨fun p q => le_total q.2 p.2⟩

instance : IsTrans (ℕ × ℝ) score_desc := ⟨fun _ _ _ h1 h2 => le_trans h2 h1⟩

/-- din.py line 424: `rank = sorted(zip(ids, recos[ids]), key=lambda x: -x[1])`
(Python's sort is stable, so ties keep the order produced by the selection step). -/
noncomputable def top_rank (cfg : DinConfig) (out : ℕ → ℝ) (count : ℕ) :
    List (ℕ × ℝ) :=
  List.insertionSort score_desc
    ((argpartition_top (recos_of cfg out) count).map fun i =>
      (i, (recos_of cfg out).getD i 0))

/-- din.py lines 401-429.  Result: `Except.ok none` models the bare `return` of line 404,
`Except.error` models the ValueError raised by `np.argpartition` at line 423 when
`count` exceeds the catalog size (kth index out of range, also when the catalog is
empty), and `Except.ok (some l)` is the returned recommendation list of lines 425-429:
the ranked pairs with consumed item ids dropped, truncated to `n_rec` entries. -/
noncomputable def recommend_user (cfg : DinConfig) (out : ℕ → ℝ) (user n_rec : ℕ) :
    Except NpError (Option (List (ℕ × ℝ))) :=
  if py_falsy (check_unknown_user cfg user) then Except.ok none
  else if cfg.n_items = 0 ∨
      cfg.n_items < rec_count cfg ((check_unknown_user cfg user).getD 0) n_rec then
    Except.error NpError.kth_out_of_bounds
  else
    Except.ok (some
      (((top_rank cfg out
          (rec_count cfg ((check_unknown_user cfg user).getD 0) n_rec)).filter fun p =>
        !((cfg.user_consumed ((check_unknown_user cfg user).getD 0)).contains p.1)).take
        n_rec))

/- ------------------------------------------------------------------ -/
/- attention unit, non-library variant (din.py lines 277-305)          -/
/- ------------------------------------------------------------------ -/

/-- din.py line 292: the padding constant `-2**32 + 1` substituted for masked logits. -/
noncomputable def attn_pad : ℝ := -(2 ^ 32) + 1

/-- `tf.div_no_nan` (din.py lines 294-299): division that yields 0 on a zero divisor. -/
noncomputable def div_no_nan (x y : ℝ) : ℝ := if y = 0 then 0 else x / y

/-- din.py line 291: `key_masks = tf.sequence_mask(keys_len, self.max_seq_len)` — one
row of the boolean mask: position `i` is valid exactly when `i` is below the true
length `l`. -/
def key_mask (l i : ℕ) : Bool := decide (i < l)

/-- din.py line 293: `tf.where(key_masks, attention_weights, paddings)` — the raw
attention logit survives at valid positions, masked positions get `attn_pad`. -/
noncomputable def masked_logit (l : ℕ) (logits : ℕ → ℝ) (i : ℕ) : ℝ :=
  if key_mask l i then logits i else attn_pad

/-- din.py lines 294-299: the masked logits scaled by `1/sqrt(K)` through
`tf.div_no_nan`, where `K` is the feature size of the keys. -/
noncomputable def attn_score (K l : ℕ) (logits : ℕ → ℝ) (i : ℕ) : ℝ :=
  div_no_nan (masked_logit l logits i) (Real.sqrt K)

/-- Softmax denominator over the sequence axis of length `L = max_seq_len`
(din.py line 302). -/
noncomputable def attn_denom (K L l : ℕ) (logits : ℕ → ℝ) : ℝ :=
  ∑ j in Finset.range L, Real.exp (attn_score K l logits j)

/-- din.py line 302: one softmax attention weight over the sequence axis. -/
noncomputable def attn_weight (K L l : ℕ) (logits : ℕ → ℝ) (i : ℕ) : ℝ :=
  Real.exp (attn_score K l logits i) / attn_denom K L l logits

/-- din.py line 304: `pooled_outputs = attention_scores @ keys` — one coordinate `d` of
the pooled context vector, the attention-weighted sum of the key vectors. -/
noncomputable def attn_pooled (K L l : ℕ) (logits : ℕ → ℝ) (keys : ℕ → ℕ → ℝ)
    (d : ℕ) : ℝ :=
  ∑ i in Finset.range L, attn_weight K L l logits i * keys i d

/-- din.py line 287: the final `units=1` dense layer (no activation) producing the raw
attention logit of one sequence position from the 16-unit hidden layer output. -/
noncomputable def attn_logit (w : ℕ → ℝ) (b : ℝ) (hidden : ℕ → ℝ) : ℝ :=
  b + ∑ j in Finset.range 16, w j * hidden j

/-- din.py lines 284-287: the raw attention logit of sequence position `i`; the hidden
layer (16 units, line 284) is sigmoid-activated (line 285), so its outputs are the
sigmoids of arbitrary pre-activations `pre i`. -/
noncomputable def din_logits (w : ℕ → ℝ) (b : ℝ) (pre : ℕ → ℕ → ℝ) (i : ℕ) : ℝ :=
  attn_logit w b fun j => sigmoid (pre i j)

/- ------------------------------------------------------------------ -/
/- variable initialization (din.py lines 101-102 and 140-162)          -/
/- ------------------------------------------------------------------ -/

/-- A `tf.get_variable(..., initializer=tf_truncated_normal(0.0, 0.01))` table of shape
`[rows, cols]` (din.py lines 140-162): `gen` is the deterministic pseudo-random stream
of the truncated-normal initializer, keyed by the graph-level seed and by the op index
assigned in graph-construction order. -/
def trunc_normal_table (gen : ℕ → ℕ → ℕ → ℕ → ℝ) (graph_seed op_idx rows cols : ℕ) :
    ℕ → ℕ → ℝ :=
  fun r c => if r < rows ∧ c < cols then gen graph_seed op_idx r c else 0

/-- The four embedding tables allocated by _build_variables; sparse and dense tables
exist only when the corresponding features are configured. -/
structure InitTables where
  user_feat : ℕ → ℕ → ℝ
  item_feat : ℕ → ℕ → ℝ
  sparse_feat : Option (ℕ → ℕ → ℝ)
  dense_feat : Option (ℕ → ℕ → ℝ)

/-- din.py lines 140-162: allocate the tables in fixed graph order — user, item, then
sparse and dense when configured (each later table gets the next op index). -/
def build_variables (gen : ℕ → ℕ → ℕ → ℕ → ℝ) (cfg : DinConfig) (graph_seed : ℕ) :
    InitTables :=
  ⟨trunc_normal_table gen graph_seed 0 cfg.n_users cfg.embed_size,
   trunc_normal_table gen graph_seed 1 cfg.n_items cfg.embed_size,
   if cfg.sparse then
     some (trunc_normal_table gen graph_seed 2 cfg.sparse_feature_size cfg.embed_size)
   else none,
   if cfg.dense then
     some (trunc_normal_table gen graph_seed (if cfg.sparse then 3 else 2)
       cfg.dense_field_size cfg.embed_size)
   else none⟩

/-- din.py line 102: `tf.set_random_seed(self.seed)` — the graph-level seed is reset to
the configured seed, discarding whatever seed state was in effect before. -/
def set_random_seed (seed prior : ℕ) : ℕ := seed

/-- din.py lines 101-105: _build_model seeds the graph and then allocates the embedding
tables; `prior` is the ambient graph-seed state before the build. -/
def build_model_init (gen : ℕ → ℕ → ℕ → ℕ → ℝ) (cfg : DinConfig) (prior : ℕ) :
    InitTables :=
  build_variables gen cfg (set_random_seed cfg.seed prior)

/- ------------------------------------------------------------------ -/
/- composite item embedding (din.py 164-168, 177-181, 196-200, 255-258)-/
/- ------------------------------------------------------------------ -/

/-- One row of an embedding table as a feature vector of length `K`
(`tf.nn.embedding_lookup` of a single index). -/
def embed_row (K : ℕ) (table : ℕ → ℕ → ℝ) (row : ℕ) : List ℝ :=
  (List.range K).map (table row)

/-- Static per-item features fed to the composite item embedding: the item id, the
item's static sparse field indices (`data_info.item_sparse_unique`) and its static
dense field values (`data_info.item_dense_unique`). -/
structure ItemExample where
  item_id : ℕ
  sparse_idx : ℕ → ℕ
  dense_val : ℕ → ℝ

/-- Trained embedding tables used when assembling feature vectors. -/
structure Tables where
  user_feat : ℕ → ℕ → ℝ
  item_feat : ℕ → ℕ → ℝ
  sparse_feat : ℕ → ℕ → ℝ
  dense_feat : ℕ → ℕ → ℝ

/-- din.py lines 177-181: the flattened item-level slice of the sparse embedding —
`tf.gather(sparse_embed, self.item_sparse_col_indices, axis=1)` flattened, i.e. the
`embed_size`-vectors of the item-level sparse fields concatenated in column order. -/
def item_sparse_embed (cfg : DinConfig) (t : Tables) (ex : ItemExample) : List ℝ :=
  (cfg.item_sparse_col_indices.map fun c =>
    embed_row cfg.embed_size t.sparse_feat (ex.sparse_idx c)).flatten

/-- din.py lines 196-200: the flattened item-level slice of the dense embedding — each
item-level dense field contributes its shared per-field embedding vector scaled by the
item's static dense value. -/
def item_dense_embed (cfg : DinConfig) (t : Tables) (ex : ItemExample) : List ℝ :=
  (cfg.item_dense_col_indices.map fun c =>
    (List.range cfg.embed_size).map fun k => t.dense_feat c k * ex.dense_val c).flatten

/-- The `self.item_embed` list built across _build_user_item (line 168), _build_sparse
(lines 177-181, only when sparse features are configured) and _build_dense (lines
196-200, only when dense features are configured). -/
def item_embed_parts (cfg : DinConfig) (t : Tables) (ex : ItemExample) :
    List (List ℝ) :=
  [embed_row cfg.embed_size t.item_feat ex.item_id]
    ++ (if cfg.sparse ∧ cfg.item_sparse then [item_sparse_embed cfg t ex] else [])
    ++ (if cfg.dense ∧ cfg.item_dense then [item_dense_embed cfg t ex] else [])

/-- din.py line 256: `item_total_embed = tf.concat(self.item_embed, axis=1)` — the
composite item embedding of one example. -/
def item_total_embed (cfg : DinConfig) (t : Tables) (ex : ItemExample) : List ℝ :=
  (item_embed_parts cfg t ex).flatten

/- ------------------------------------------------------------------ -/
/- helper lemmas                                                       -/
/- ------------------------------------------------------------------ -/

lemma sigmoid_zero : sigmoid 0 = 1 / 2 := by
  rw [sigmoid, neg_zero, Real.exp_zero]
  norm_num

lemma map_zip_self {α β : Type} (f : α → β) :
    ∀ l : List α, (l.map f).zip l = l.map fun a => (f a, a)
  | [] => rfl
  | a :: t => by simp [map_zip_self f t]

lemma final_preds_eq (cfg : DinConfig) (net : ℕ → ℕ → ℝ) (us vs : List ℕ) :
    final_preds cfg net us vs = (us.zip vs).map fun p =>
      if known_pair cfg p.1 p.2 then sigmoid (net p.1 p.2)
      else default_prediction cfg := by
  unfold final_preds transformed_preds raw_preds
  rw [List.map_map, List.map_map, map_zip_self, List.map_map]
  refine List.map_congr_left fun p _ => ?_
  by_cases hk : known_pair cfg p.1 p.2
  · simp [hk, resolve_pair, Function.comp]
  · simp [hk, resolve_pair, Function.comp]

lemma final_preds_length (cfg : DinConfig) (net : ℕ → ℕ → ℝ) (us vs : List ℕ)
    (hlen : us.length = vs.length) :
    (final_preds cfg net us vs).length = us.length := by
  rw [final_preds_eq]
  simp [List.length_zip, hlen]

/- ------------------------------------------------------------------ -/
/- concrete instances used by counterexamples and witnesses            -/
/- ------------------------------------------------------------------ -/

/-- A score function that always returns a raw fusion-head output of 0. -/
def net0 : ℕ → ℕ → ℝ := fun _ _ => 0

/-- A per-item score function that always returns a raw fusion-head output of 0. -/
def out0 : ℕ → ℝ := fun _ => 0

/-- Ranking model over 2 users and 2 items; user 1 has consumed both items. -/
def cfgA : DinConfig :=
  ⟨DinTask.ranking, 1, 2, 2, false, false, false, false, 0, 0, [], [], 1, 0, 42,
    fun u => if u = 1 then [0, 1] else []⟩

/-- Rating model (global mean 4) over 2 users and 1 item, nothing consumed. -/
def cfgB : DinConfig :=
  ⟨DinTask.rating, 1, 2, 1, false, false, false, false, 0, 0, [], [], 1, 4, 42,
    fun _ => []⟩

/-- Ranking model over 2 users and 5 items; user 1's consumed list holds item 1 three
times (interaction logs may repeat an item), so only one distinct item is consumed. -/
def cfgC : DinConfig :=
  ⟨DinTask.ranking, 1, 2, 5, false, false, false, false, 0, 0, [], [], 1, 0, 42,
    fun u => if u = 1 then [1, 1, 1] else []⟩

/-- Ranking model with a single user and a single item and no side features. -/
def cfgD : DinConfig :=
  ⟨DinTask.ranking, 1, 1, 1, false, false, false, false, 0, 0, [], [], 1, 0, 42,
    fun _ => []⟩

/-- Ranking model over 3 users and 4 items; user 2 has consumed item 1. -/
def cfgE : DinConfig :=
  ⟨DinTask.ranking, 1, 3, 4, false, false, false, false, 0, 0, [], [], 1, 0, 42,
    fun u => if u = 2 then [1] else []⟩

/-- All-zero embedding tables. -/
def tables0 : Tables := ⟨fun _ _ => 0, fun _ _ => 0, fun _ _ => 0, fun _ _ => 0⟩

/-- A trivial static item-feature record. -/
def ex0 : ItemExample := ⟨0, fun _ => 0, fun _ => 0⟩

/- ------------------------------------------------------------------ -/
/- claim theorems                                                      -/
/- ------------------------------------------------------------------ -/

/-- Claim C10: building the model twice with the same seed and identical configuration
yields identical initial values in every embedding table.  In the model the
truncated-normal stream `gen` is a deterministic function of the graph seed and the op
index, and `tf.set_random_seed(self.seed)` at the start of _build_model overwrites any
prior graph-seed state, so the initial tables are a function of the seed and the
configuration alone. -/
theorem build_init_deterministic (gen : ℕ → ℕ → ℕ → ℕ → ℝ) (cfg : DinConfig)
    (g1 g2 : ℕ) :
    build_model_init gen cfg g1 = build_model_init gen cfg g2
    ∧ build_model_init gen cfg g1 = build_variables gen cfg cfg.seed :=
  ⟨rfl, rfl⟩

/-- Claim C5: for a user id outside the trained vocabulary, recommend_user returns no
recommendations (None) instead of raising, whatever n_rec is. -/
theorem recommend_unknown_user_none (cfg : DinConfig) (out : ℕ → ℝ) (user n_rec : ℕ)
    (hu : cfg.n_users ≤ user) :
    recommend_user cfg out user n_rec = Except.ok none := by
  have h : ¬ user < cfg.n_users := Nat.not_lt.mpr hu
  simp [recommend_user, check_unknown_user, py_falsy, h]

/-- Witness for C5: user id 7 is unknown to the 2-user model cfgA. -/
theorem recommend_unknown_user_none_witness :
    recommend_user cfgA out0 7 3 = Except.ok none :=
  recommend_unknown_user_none cfgA out0 7 3 (by decide)

/-- Claim C7: for a user that reaches the selection step (known to the model and with a
nonzero id, since unknown and zero ids return early at line 403), recommend_user raises
the argpartition kth-out-of-bounds error whenever n_rec plus the length of the user's
consumed list exceeds n_items — even when enough un-consumed items exist, as the
consumed list may repeat items. -/
theorem recommend_overfull_raises (cfg : DinConfig) (out : ℕ → ℝ) (user n_rec : ℕ)
    (hu : user < cfg.n_users) (h0 : user ≠ 0)
    (hover : cfg.n_items < n_rec + (cfg.user_consumed user).length) :
    recommend_user cfg out user n_rec = Except.error NpError.kth_out_of_bounds := by
  simp [recommend_user, check_unknown_user, py_falsy, hu, h0, rec_count, hover]

/-- Witness for C7: in cfgC, n_rec = 3 plus the consumed-list length 3 exceeds the 5
items and recommend_user raises, although 4 distinct items (enough for 3
recommendations) remain un-consumed. -/
theorem recommend_overfull_raises_witness :
    recommend_user cfgC out0 1 3 = Except.error NpError.kth_out_of_bounds
    ∧ ((List.range cfgC.n_items).filter fun i =>
        !((cfgC.user_consumed 1).contains i)).length = 4 :=
  ⟨recommend_overfull_raises cfgC out0 1 3 (by decide) (by decide) (by decide),
   by decide⟩

/-- Counterexample for C6: for the equal-length arrays [0] and [0] of length M = 1 the
claim promises an array of length 1, but predict returns the bare scalar preds[0]
(din.py line 399 collapses every length-1 batch, whether or not the caller passed
arrays). -/
theorem predict_singleton_array_not_array :
    is_arr_out (predict cfgD net0 (PredIn.arr [0] [0])) = false := rfl

/-- Claim C6 (amended): with two equal-length id arrays predict returns an array of the
same length when that length is not 1, returns a scalar (not an array) when the arrays
have length 1, and returns a scalar for scalar inputs. -/
theorem predict_shape (cfg : DinConfig) (net : ℕ → ℕ → ℝ) (us vs : List ℕ) (u i : ℕ)
    (hlen : us.length = vs.length) :
    (us.length ≠ 1 →
      predict cfg net (PredIn.arr us vs) = PredOut.arrOut (final_preds cfg net us vs)
      ∧ (final_preds cfg net us vs).length = us.length)
    ∧ (us.length = 1 → is_arr_out (predict cfg net (PredIn.arr us vs)) = false)
    ∧ predict cfg net (PredIn.scalar u i) =
        PredOut.scalarOut ((final_preds cfg net [u] [i]).headI) := by
  refine ⟨fun h1 => ⟨?_, final_preds_length cfg net us vs hlen⟩, fun h1 => ?_, ?_⟩
  · simp [predict, predict_run, h1]
  · simp [predict, predict_run, h1, is_arr_out]
  · simp [predict, predict_run]

/-- Witness for C6 (amended): a length-2 batch comes back as an array of length 2. -/
theorem predict_shape_witness :
    predict cfgD net0 (PredIn.arr [0, 0] [0, 0])
      = PredOut.arrOut (final_preds cfgD net0 [0, 0] [0, 0])
    ∧ (final_preds cfgD net0 [0, 0] [0, 0]).length = 2 :=
  (predict_shape cfgD net0 [0, 0] [0, 0] 0 0 rfl).1 (by decide)

/-- Claim C4: a predict position holding a user id outside the vocabulary does not make
predict raise; the prediction array keeps its length and that position holds exactly
the configured default — data_info.global_mean for the rating task and 0.0 for the
ranking task — regardless of the paired item id and bypassing the sigmoid transform
(the default is written after the transform, din.py lines 395-397). -/
theorem predict_unknown_user_default (cfg : DinConfig) (net : ℕ → ℕ → ℝ)
    (us vs : List ℕ) (k : ℕ) (hlen : us.length = vs.length) (hk : k < us.length)
    (hu : cfg.n_users ≤ us.getD k 0) :
    (final_preds cfg net us vs).length = us.length
    ∧ (final_preds cfg net us vs)[k]?
        = some (if cfg.task = DinTask.rating then cfg.global_mean else 0) := by
  have hkv : k < vs.length := hlen ▸ hk
  refine ⟨final_preds_length cfg net us vs hlen, ?_⟩
  rw [final_preds_eq]
  have hmap : k < ((us.zip vs).map fun p =>
      if known_pair cfg p.1 p.2 then sigmoid (net p.1 p.2)
      else default_prediction cfg).length := by
    simp [List.length_zip]
    omega
  rw [List.getElem?_eq_getElem hmap]
  rw [List.getElem_map, List.getElem_zip]
  have hknown : known_pair cfg us[k] vs[k] = false := by
    have h1 : ¬ us[k] < cfg.n_users := by
      rw [List.getD_eq_getElem us 0 hk] at hu
      omega
    simp [known_pair, h1]
  rw [hknown]
  simp [default_prediction]

/-- Witness for C4: in the 1-user model cfgD, user id 5 is unknown; the ranking default
0 is returned at that position. -/
theorem predict_unknown_user_default_witness :
    (final_preds cfgD net0 [5] [0]).length = 1
    ∧ (final_preds cfgD net0 [5] [0])[0]?
        = some (if cfgD.task = DinTask.rating then cfgD.global_mean else 0) :=
  predict_unknown_user_default cfgD net0 [5] [0] 0 rfl (by decide) (by decide)

/-- Claim C1 is violated by the code: for the rating-task model cfgB, a known pair whose
raw fusion-head score is 0 comes back from predict as 1/(1+exp(0)) = 1/2, and
recommend_user likewise returns the sigmoid-transformed score — both apply the sigmoid
of din.py lines 395 and 420 unconditionally, so the raw score (0 here) is NOT returned
unchanged for the rating task. -/
theorem rating_inference_applies_sigmoid :
    predict cfgB net0 (PredIn.scalar 0 0) = PredOut.scalarOut (1 / 2)
    ∧ recommend_user cfgB out0 1 1 = Except.ok (some [(0, (1 / 2 : ℝ))])
    ∧ (1 / 2 : ℝ) ≠ net0 0 0 := by
  refine ⟨?_, ?_, ?_⟩
  · have h : predict cfgB net0 (PredIn.scalar 0 0)
        = PredOut.scalarOut (sigmoid 0) := rfl
    rw [h, sigmoid_zero]
  · have h : recommend_user cfgB out0 1 1
        = Except.ok (some [(0, sigmoid 0)]) := rfl
    rw [h, sigmoid_zero]
  · have h : net0 0 0 = 0 := rfl
    rw [h]
    norm_num

/-- Counterexample for C2.  In cfgA user 1 is known and has consumed both of the 2
items, so fewer than n_rec = 1 un-consumed items exist; the claim promises a (shorter)
list without raising, but the partial-selection step raises the argpartition error
(count = 1 + 2 = 3 > 2 items).  Moreover user 0 is known (0 < n_users) yet the falsy
`if not user:` guard of din.py line 403 makes recommend_user return None instead of a
list. -/
theorem recommend_known_user_counterexample :
    recommend_user cfgA out0 1 1 = Except.error NpError.kth_out_of_bounds
    ∧ recommend_user cfgA out0 0 1 = Except.ok none
    ∧ 0 < cfgA.n_users :=
  ⟨rfl, rfl, by decide⟩

/-- Claim C2 (amended): for every known user with nonzero id and every n_rec such that
n_rec plus the length of the user's consumed list does not exceed the (nonempty) item
catalog, recommend_user returns a list of (item id, score) pairs that contains no item
of the consumed set, has at most n_rec entries, and is sorted by descending score (the
whole pipeline is a deterministic function, so ties are resolved deterministically). -/
theorem recommend_known_user_amended (cfg : DinConfig) (out : ℕ → ℝ) (user n_rec : ℕ)
    (hu : user < cfg.n_users) (h0 : user ≠ 0) (hn : 1 ≤ cfg.n_items)
    (hcount : n_rec + (cfg.user_consumed user).length ≤ cfg.n_items) :
    ∃ res : List (ℕ × ℝ),
      recommend_user cfg out user n_rec = Except.ok (some res)
      ∧ res.length ≤ n_rec
      ∧ (∀ p ∈ res, p.1 ∉ cfg.user_consumed user)
      ∧ List.Sorted score_desc res := by
  have hfalse : py_falsy (check_unknown_user cfg user) = false := by
    simp [check_unknown_user, hu, py_falsy, h0]
  have hget : (check_unknown_user cfg user).getD 0 = user := by
    simp [check_unknown_user, hu]
  have hcond : ¬ (cfg.n_items = 0 ∨ cfg.n_items < rec_count cfg user n_rec) := by
    rw [rec_count]
    omega
  refine ⟨((top_rank cfg out (rec_count cfg user n_rec)).filter fun p =>
      !((cfg.user_consumed user).contains p.1)).take n_rec, ?_, ?_, ?_, ?_⟩
  · unfold recommend_user
    rw [hget]
    simp only [hfalse, Bool.false_eq_true, if_false]
    rw [if_neg hcond]
  · exact List.length_take_le n_rec _
  · intro p hp
    have hmem := List.mem_of_mem_take hp
    rw [List.mem_filter] at hmem
    simpa using hmem.2
  · have hsorted : List.Sorted score_desc
        (top_rank cfg out (rec_count cfg user n_rec)) :=
      List.sorted_insertionSort score_desc _
    have hsub : (((top_rank cfg out (rec_count cfg user n_rec)).filter fun p =>
        !((cfg.user_consumed user).contains p.1)).take n_rec).Sublist
        (top_rank cfg out (rec_count cfg user n_rec)) :=
      (List.take_sublist _ _).trans (List.filter_sublist _)
    exact List.Pairwise.sublist hsub hsorted

/-- Witness for C2 (amended): in cfgE, user 2 (known, nonzero, one consumed item) with
n_rec = 2 satisfies 2 + 1 ≤ 4. -/
theorem recommend_known_user_amended_witness :
    ∃ res : List (ℕ × ℝ),
      recommend_user cfgE out0 2 2 = Except.ok (some res)
      ∧ res.length ≤ 2
      ∧ (∀ p ∈ res, p.1 ∉ cfgE.user_consumed 2)
      ∧ List.Sorted score_desc res :=
  recommend_known_user_amended cfgE out0 2 2 (by decide) (by decide) (by decide)
    (by decide)

lemma embed_row_length (K : ℕ) (table : ℕ → ℕ → ℝ) (row : ℕ) :
    (embed_row K table row).length = K := by
  simp [embed_row]

lemma flatten_map_const_length {α β : Type} (K : ℕ) (f : α → List β) :
    ∀ l : List α, (∀ a ∈ l, (f a).length = K) →
      ((l.map f).flatten).length = l.length * K := by
  intro l
  induction l with
  | nil => intro _; simp
  | cons a t ih =>
    intro h
    simp only [List.map_cons, List.flatten_cons, List.length_append, List.length_cons]
    rw [ih fun x hx => h x (List.mem_cons_of_mem a hx), h a (List.mem_cons_self a t)]
    ring

lemma item_sparse_embed_length (cfg : DinConfig) (t : Tables) (ex : ItemExample) :
    (item_sparse_embed cfg t ex).length
      = cfg.item_sparse_col_indices.length * cfg.embed_size :=
  flatten_map_const_length cfg.embed_size _ _ fun _ _ => embed_row_length _ _ _

lemma item_dense_embed_length (cfg : DinConfig) (t : Tables) (ex : ItemExample) :
    (item_dense_embed cfg t ex).length
      = cfg.item_dense_col_indices.length * cfg.embed_size :=
  flatten_map_const_length cfg.embed_size _ _ fun _ _ => by simp

/-- Claim C8: the composite item embedding concatenates the identity embedding (length
K = embed_size) with the item-level sparse block (one K-vector per item-level sparse
field, present only when sparse features and item-level sparse fields are configured)
and the item-level dense block (likewise); with no item-level sparse or dense fields it
is exactly the identity embedding, and the construction is total (no error). -/
theorem item_total_embed_spec (cfg : DinConfig) (t : Tables) (ex : ItemExample) :
    (item_total_embed cfg t ex).length
      = cfg.embed_size
        + (if cfg.sparse ∧ cfg.item_sparse then
            cfg.item_sparse_col_indices.length * cfg.embed_size else 0)
        + (if cfg.dense ∧ cfg.item_dense then
            cfg.item_dense_col_indices.length * cfg.embed_size else 0)
    ∧ (cfg.item_sparse = false → cfg.item_dense = false →
        item_total_embed cfg t ex = embed_row cfg.embed_size t.item_feat ex.item_id) := by
  constructor
  · unfold item_total_embed item_embed_parts
    by_cases hs : cfg.sparse ∧ cfg.item_sparse <;>
      by_cases hd : cfg.dense ∧ cfg.item_dense <;>
        simp [hs, hd, item_sparse_embed_length, item_dense_embed_length,
          embed_row_length, Nat.add_assoc]
  · intro h1 h2
    unfold item_total_embed item_embed_parts
    simp [h1, h2]

/-- Witness for C8: with no side features configured (cfgD) the composite embedding is
the identity embedding alone. -/
theorem item_total_embed_spec_witness :
    item_total_embed cfgD tables0 ex0
      = embed_row cfgD.embed_size tables0.item_feat ex0.item_id :=
  (item_total_embed_spec cfgD tables0 ex0).2 rfl rfl

/- ------------------------------------------------------------------ -/
/- attention-unit numerics (claims C3 and C9)                          -/
/- ------------------------------------------------------------------ -/

lemma sigmoid_nonneg (x : ℝ) : 0 ≤ sigmoid x := by
  unfold sigmoid
  have h : (0:ℝ) < 1 + Real.exp (-x) := by positivity
  positivity

lemma sigmoid_le_one (x : ℝ) : sigmoid x ≤ 1 := by
  unfold sigmoid
  rw [div_le_one (by positivity)]
  have h := (Real.exp_pos (-x)).le
  linarith

lemma abs_din_logits_le (w : ℕ → ℝ) (b : ℝ) (pre : ℕ → ℕ → ℝ) (i : ℕ) :
    |din_logits w b pre i| ≤ |b| + ∑ j in Finset.range 16, |w j| := by
  unfold din_logits attn_logit
  refine le_trans (abs_add _ _) (add_le_add_left ?_ _)
  refine le_trans (Finset.abs_sum_le_sum_abs _ _) ?_
  refine Finset.sum_le_sum fun j _ => ?_
  rw [abs_mul]
  have h1 : |sigmoid (pre i j)| ≤ 1 := by
    rw [abs_of_nonneg (sigmoid_nonneg _)]
    exact sigmoid_le_one _
  calc |w j| * |sigmoid (pre i j)| ≤ |w j| * 1 :=
        mul_le_mul_of_nonneg_left h1 (abs_nonneg _)
    _ = |w j| := mul_one _

lemma exp_neg_one_lt_half : Real.exp (-1) < 1 / 2 := by
  rw [Real.exp_neg]
  have h2 : (2:ℝ) < Real.exp 1 := by
    have h := Real.exp_one_gt_d9
    linarith
  rw [one_div]
  exact inv_lt_inv_of_lt (by norm_num) h2

lemma exp_neg_forty_lt : Real.exp (-40) < 1 / 2 ^ 40 := by
  have h : Real.exp (-40 : ℝ) = Real.exp (-1) ^ (40 : ℕ) := by
    rw [← Real.exp_nat_mul]
    norm_num
  rw [h]
  have h2 := pow_lt_pow_left exp_neg_one_lt_half (Real.exp_pos (-1)).le
    (n := 40) (by norm_num)
  calc Real.exp (-1) ^ (40 : ℕ) < (1 / 2) ^ (40 : ℕ) := h2
    _ = 1 / 2 ^ 40 := by norm_num

lemma exp_neg_forty_small :
    Real.exp (-40) < 1 / 1000000 ∧ (2:ℝ) ^ 20 * Real.exp (-40) ≤ 1 / 100000 := by
  have h := exp_neg_forty_lt
  constructor
  · calc Real.exp (-40) < 1 / 2 ^ 40 := h
      _ < 1 / 1000000 := by norm_num
  · calc (2:ℝ) ^ 20 * Real.exp (-40) ≤ 2 ^ 20 * (1 / 2 ^ 40) :=
        mul_le_mul_of_nonneg_left h.le (by positivity)
      _ ≤ 1 / 100000 := by norm_num

lemma attn_weight_nonneg (K L l : ℕ) (logits : ℕ → ℝ) (i : ℕ) :
    0 ≤ attn_weight K L l logits i := by
  unfold attn_weight attn_denom
  exact div_nonneg (Real.exp_pos _).le (Finset.sum_nonneg fun j _ => (Real.exp_pos _).le)

lemma attn_denom_pos (K L l : ℕ) (logits : ℕ → ℝ) (hL : 0 < L) :
    0 < attn_denom K L l logits := by
  unfold attn_denom
  exact Finset.sum_pos (fun j _ => Real.exp_pos _)
    (by rw [Finset.nonempty_range_iff]; omega)

lemma attn_weight_sum_eq_one (K L l : ℕ) (logits : ℕ → ℝ) (hL : 0 < L) :
    ∑ i in Finset.range L, attn_weight K L l logits i = 1 := by
  unfold attn_weight
  rw [← Finset.sum_div]
  exact div_self (attn_denom_pos K L l logits hL).ne'

lemma attn_weight_le_exp_sub (K L l : ℕ) (logits : ℕ → ℝ) (i v : ℕ) (hv : v < L) :
    attn_weight K L l logits i
      ≤ Real.exp (attn_score K l logits i - attn_score K l logits v) := by
  have hden : Real.exp (attn_score K l logits v) ≤ attn_denom K L l logits := by
    unfold attn_denom
    exact Finset.single_le_sum (fun j _ => (Real.exp_pos _).le)
      (Finset.mem_range.mpr hv)
  have hpos : 0 < attn_denom K L l logits := lt_of_lt_of_le (Real.exp_pos _) hden
  unfold attn_weight
  rw [Real.exp_sub]
  exact (div_le_div_left (Real.exp_pos _) hpos (Real.exp_pos _)).mpr hden

lemma attn_pad_weight_le (K L l : ℕ) (logits : ℕ → ℝ)
    (hK1 : 1 ≤ K) (hK2 : K ≤ 2 ^ 20) (hl0 : 0 < l) (hlL : l < L)
    (hB : ∀ i, i < l → |logits i| ≤ 2 ^ 20) :
    ∀ i, l ≤ i → attn_weight K L l logits i ≤ Real.exp (-40) := by
  intro i hi
  have hK0 : (0:ℝ) < (K:ℝ) := by exact_mod_cast hK1
  have hs0 : 0 < Real.sqrt K := Real.sqrt_pos.mpr hK0
  have hs2 : Real.sqrt K ≤ 2 ^ 10 := by
    have h1 : Real.sqrt K ≤ Real.sqrt ((2:ℝ) ^ 20) := by
      apply Real.sqrt_le_sqrt
      calc (K:ℝ) ≤ ((2 ^ 20 : ℕ) : ℝ) := by exact_mod_cast hK2
        _ = (2:ℝ) ^ 20 := by push_cast; ring
    calc Real.sqrt K ≤ Real.sqrt ((2:ℝ) ^ 20) := h1
      _ = 2 ^ 10 := by
        rw [show ((2:ℝ) ^ 20) = ((2:ℝ) ^ 10) ^ 2 by ring]
        exact Real.sqrt_sq (by positivity)
  have hnot : ¬ i < l := Nat.not_lt.mpr hi
  have hpad_score : attn_score K l logits i = attn_pad / Real.sqrt K := by
    simp [attn_score, masked_logit, key_mask, hnot, div_no_nan, hs0.ne']
  have hval_score : attn_score K l logits 0 = logits 0 / Real.sqrt K := by
    simp [attn_score, masked_logit, key_mask, hl0, div_no_nan, hs0.ne']
  have hdiff : attn_score K l logits i - attn_score K l logits 0 ≤ -40 := by
    rw [hpad_score, hval_score, div_sub_div_same, div_le_iff hs0]
    have hlog : -(2:ℝ) ^ 20 ≤ logits 0 := (abs_le.mp (hB 0 hl0)).1
    have hmul : (-40 : ℝ) * 2 ^ 10 ≤ -40 * Real.sqrt K :=
      mul_le_mul_of_nonpos_left hs2 (by norm_num)
    have hpadv : attn_pad = -(2:ℝ) ^ 32 + 1 := rfl
    have hnum : -(2:ℝ) ^ 32 + 1 + 2 ^ 20 ≤ -40 * 2 ^ 10 := by norm_num
    rw [hpadv]
    linarith
  calc attn_weight K L l logits i
      ≤ Real.exp (attn_score K l logits i - attn_score K l logits 0) :=
        attn_weight_le_exp_sub K L l logits i 0 (lt_trans hl0 hlL)
    _ ≤ Real.exp (-40) := Real.exp_le_exp.mpr hdiff

/-- Claim C3: in the non-library attention unit, for a true length l with 0 < l < L
(L = max_seq_len) the key mask is (position < true length), masked positions carry the
huge negative constant -2^32 + 1, every padding position's softmax weight is below
10^-6, and the weights of the valid positions sum to 1 within 10^-5.  The raw logits
come from the units=1 dense layer over the sigmoid-activated hidden layer, so they are
bounded once the layer's weights are (hypothesis hwb); the embedding size and the
sequence length carry the generous bound 2^20. -/
theorem attention_masked_softmax (K L l : ℕ) (w : ℕ → ℝ) (b : ℝ) (pre : ℕ → ℕ → ℝ)
    (hK1 : 1 ≤ K) (hK2 : K ≤ 2 ^ 20) (hL20 : L ≤ 2 ^ 20) (hl0 : 0 < l) (hlL : l < L)
    (hwb : |b| + ∑ j in Finset.range 16, |w j| ≤ 2 ^ 20) :
    (∀ i, key_mask l i = decide (i < l))
    ∧ (∀ i, l ≤ i → masked_logit l (din_logits w b pre) i = attn_pad)
    ∧ (∀ i, l ≤ i → i < L →
        attn_weight K L l (din_logits w b pre) i < 1 / 1000000)
    ∧ |(∑ i in Finset.range l, attn_weight K L l (din_logits w b pre) i) - 1|
        ≤ 1 / 100000 := by
  have hB : ∀ i, i < l → |din_logits w b pre i| ≤ 2 ^ 20 :=
    fun i _ => le_trans (abs_din_logits_le w b pre i) hwb
  have hpadw := attn_pad_weight_le K L l (din_logits w b pre) hK1 hK2 hl0 hlL hB
  refine ⟨fun i => rfl, ?_, ?_, ?_⟩
  · intro i hi
    have hnot : ¬ i < l := Nat.not_lt.mpr hi
    simp [masked_logit, key_mask, hnot]
  · intro i hi _
    exact lt_of_le_of_lt (hpadw i hi) exp_neg_forty_small.1
  · have hL0 : 0 < L := lt_trans hl0 hlL
    have hsum := attn_weight_sum_eq_one K L l (din_logits w b pre) hL0
    have hsplit : (∑ i in Finset.range l, attn_weight K L l (din_logits w b pre) i)
        + (∑ i in Finset.Ico l L, attn_weight K L l (din_logits w b pre) i)
        = ∑ i in Finset.range L, attn_weight K L l (din_logits w b pre) i := by
      rw [Finset.range_eq_Ico]
      exact Finset.sum_Ico_consecutive _ (Nat.zero_le l) (le_of_lt hlL)
    have hpad_nonneg :
        0 ≤ ∑ i in Finset.Ico l L, attn_weight K L l (din_logits w b pre) i :=
      Finset.sum_nonneg fun i _ => attn_weight_nonneg K L l _ i
    have hpad_le : (∑ i in Finset.Ico l L, attn_weight K L l (din_logits w b pre) i)
        ≤ ((L - l : ℕ) : ℝ) * Real.exp (-40) := by
      have h := Finset.sum_le_card_nsmul (Finset.Ico l L) _ (Real.exp (-40))
        (fun i hi => hpadw i (Finset.mem_Ico.mp hi).1)
      rwa [Nat.card_Ico, nsmul_eq_mul] at h
    have hcast : ((L - l : ℕ) : ℝ) ≤ (2:ℝ) ^ 20 := by
      have h1 : (L - l : ℕ) ≤ 2 ^ 20 := le_trans (Nat.sub_le L l) hL20
      calc ((L - l : ℕ) : ℝ) ≤ ((2 ^ 20 : ℕ) : ℝ) := by exact_mod_cast h1
        _ = (2:ℝ) ^ 20 := by push_cast; ring
    have hpad_small :
        (∑ i in Finset.Ico l L, attn_weight K L l (din_logits w b pre) i)
          ≤ 1 / 100000 := by
      calc (∑ i in Finset.Ico l L, attn_weight K L l (din_logits w b pre) i)
          ≤ ((L - l : ℕ) : ℝ) * Real.exp (-40) := hpad_le
        _ ≤ (2:ℝ) ^ 20 * Real.exp (-40) :=
            mul_le_mul_of_nonneg_right hcast (Real.exp_pos _).le
        _ ≤ 1 / 100000 := exp_neg_forty_small.2
    have heq : (∑ i in Finset.range l, attn_weight K L l (din_logits w b pre) i) - 1
        = -(∑ i in Finset.Ico l L, attn_weight K L l (din_logits w b pre) i) := by
      linarith
    rw [heq, abs_neg, abs_of_nonneg hpad_nonneg]
    exact hpad_small

/-- Zero weights for the hidden layer of the attention MLP. -/
def wzero : ℕ → ℝ := fun _ => 0

/-- Zero pre-activations for the attention MLP hidden layer. -/
def prezero : ℕ → ℕ → ℝ := fun _ _ => 0

/-- Witness for C3: K = 1, max_seq_len = 2, true length 1, all-zero layer weights. -/
theorem attention_masked_softmax_witness :
    (∀ i, key_mask 1 i = decide (i < 1))
    ∧ (∀ i, 1 ≤ i → masked_logit 1 (din_logits wzero 0 prezero) i = attn_pad)
    ∧ (∀ i, 1 ≤ i → i < 2 →
        attn_weight 1 2 1 (din_logits wzero 0 prezero) i < 1 / 1000000)
    ∧ |(∑ i in Finset.range 1, attn_weight 1 2 1 (din_logits wzero 0 prezero) i) - 1|
        ≤ 1 / 100000 :=
  attention_masked_softmax 1 2 1 wzero 0 prezero (by norm_num) (by norm_num)
    (by norm_num) (by norm_num) (by norm_num) (by norm_num [wzero])

/-- Claim C9: with true length 0 every position is masked, all scaled scores equal the
same constant, and the softmax denominator stays strictly positive (TensorFlow's
softmax is the stable exponential form, which over the reals is exactly this
expression); every weight is 1/L and the pooled context vector is the uniform average
of the key vectors — a well-defined finite value, with no NaN or Inf possible. -/
theorem attention_empty_seq_defined (K L : ℕ) (logits : ℕ → ℝ) (keys : ℕ → ℕ → ℝ)
    (hL : 0 < L) :
    0 < attn_denom K L 0 logits
    ∧ (∀ i, attn_weight K L 0 logits i = 1 / L)
    ∧ (∀ d, attn_pooled K L 0 logits keys d
        = (∑ i in Finset.range L, keys i d) / L) := by
  have hconst : ∀ i, attn_score K 0 logits i
      = div_no_nan attn_pad (Real.sqrt K) := fun i => by
    simp [attn_score, masked_logit, key_mask]
  have hLr : ((L:ℝ)) ≠ 0 := Nat.cast_ne_zero.mpr hL.ne'
  have hdenom : attn_denom K L 0 logits
      = (L:ℝ) * Real.exp (div_no_nan attn_pad (Real.sqrt K)) := by
    unfold attn_denom
    rw [Finset.sum_congr rfl fun i _ => by rw [hconst i]]
    rw [Finset.sum_const, Finset.card_range, nsmul_eq_mul]
  have hw : ∀ i, attn_weight K L 0 logits i = 1 / L := by
    intro i
    unfold attn_weight
    rw [hdenom, hconst i]
    rw [eq_div_iff hLr]
    have he : Real.exp (div_no_nan attn_pad (Real.sqrt K)) ≠ 0 :=
      (Real.exp_pos _).ne'
    field_simp
    ring
  refine ⟨?_, hw, ?_⟩
  · rw [hdenom]
    have h0 : (0:ℝ) < (L:ℝ) := by exact_mod_cast hL
    exact mul_pos h0 (Real.exp_pos _)
  · intro d
    unfold attn_pooled
    rw [Finset.sum_congr rfl fun i _ => by rw [hw i]]
    rw [← Finset.mul_sum]
    ring

/-- Witness for C9: K = 1, max_seq_len = 2, true length 0, zero logits and keys. -/
theorem attention_empty_seq_defined_witness :
    0 < attn_denom 1 2 0 out0
    ∧ (∀ i, attn_weight 1 2 0 out0 i = 1 / ((2:ℕ):ℝ))
    ∧ (∀ d, attn_pooled 1 2 0 out0 net0 d
        = (∑ i in Finset.range 2, net0 i d) / ((2:ℕ):ℝ)) :=
  attention_empty_seq_defined 1 2 out0 net0 (by norm_num)
